import Mathlib

/-!
Verification of the requirement-extraction / property-matching /
emotion-heuristic core of the Commercial-Real-Estate Voice AI backend.

The development shallowly embeds the two implementations found in the
repository:

* `app/services/property_matching_service.py` — the modular service
  (`_extract_requirements`, `_apply_emotion_filters`,
  `_find_matching_properties`);
* `final_web_app.py` — the monolithic near-duplicate
  (`analyze_emotion_from_text`, `find_matching_properties`);
* `app/services/transcription_service.py` — `_basic_emotion_analysis`.

Texts are `List Char`; Python floats are modelled as exact rationals
(none of the verified properties depends on binary rounding).  The
regular expressions used by the source are embedded as explicit
scanning functions with Python `re` semantics (leftmost non-overlapping
matches, greedy quantifiers with backtracking, alternatives tried left
to right).  The pandas `sort_values(..., ascending=False)` call is
embedded parameterised by the underlying argsort kernel, because the
source leaves it at the default `kind='quicksort'`, whose tie behaviour
is decided inside numpy and is not stability-guaranteed; everything
proved below holds for an arbitrary kernel.
-/

namespace CRE

/-- Python `\s` on ASCII text: space, tab, newline, carriage return,
vertical tab, form feed. -/
def isSpace (c : Char) : Bool :=
  c = ' ' || c = '\t' || c = '\n' || c = '\r' || c = '\x0b' || c = '\x0c'

/-- Value of a run of decimal digit characters. -/
def digitsToNat (ds : List Char) : Nat :=
  ds.foldl (fun a c => 10 * a + (c.toNat - 48)) 0

/-- Match a literal string at the head of the input; return the rest. -/
def stripLit : List Char → List Char → Option (List Char)
  | [], s => some s
  | _ :: _, [] => none
  | l :: ls, c :: cs => if l = c then stripLit ls cs else none

/-- First alternative (in order) on which `f` succeeds. -/
def firstSome? : List α → (α → Option β) → Option β
  | [], _ => none
  | a :: as, f =>
    match f a with
    | some b => some b
    | none => firstSome? as f

/-- One iteration of the regex group `(?:,\d{3})*`: a comma followed by
exactly three digits. -/
def commaGroup : List Char → Option (List Char × List Char)
  | ',' :: a :: b :: c :: rest =>
    if a.isDigit && b.isDigit && c.isDigit then some ([a, b, c], rest) else none
  | _ => none

/-- All ways `(?:,\d{3})*` can match, greedy first (most repetitions
first), as Python's backtracking tries them. -/
def starGroups : Nat → List Char → List (List Char × List Char)
  | 0, s => [([], s)]
  | fuel + 1, s =>
    match commaGroup s with
    | some (ds, rest) =>
      ((starGroups fuel rest).map fun p => (ds ++ p.1, p.2)) ++ [([], s)]
    | none => [([], s)]

/-- Fully greedy `(?:,\d{3})*` (used where the group ends the pattern,
so no backtracking can be demanded). -/
def starMax : Nat → List Char → (List Char × List Char)
  | 0, s => ([], s)
  | fuel + 1, s =>
    match commaGroup s with
    | some (ds, rest) =>
      let p := starMax fuel rest
      (ds ++ p.1, p.2)
    | none => ([], s)

/-- All ways `\d{1,3}` can match at the head of `s`, greedy first. -/
def dOneToThree (s : List Char) : List (List Char × List Char) :=
  let run := s.takeWhile Char.isDigit
  let after := s.dropWhile Char.isDigit
  let n := min run.length 3
  (List.range n).map fun i =>
    let k := n - i
    (run.take k, run.drop k ++ after)

/-- Consume a single `.` if present (`\.?`, greedy). -/
def optDot : List Char → List Char
  | '.' :: rest => rest
  | s => s

/-- The size-pattern unit `(?:sq\.?\s*ft\.?|square\s*feet?|sf)`,
alternatives tried left to right as Python does. -/
def matchSqUnit (s : List Char) : Option (List Char) :=
  (do
    let r ← stripLit ['s', 'q'] s
    let r := optDot r
    let r := r.dropWhile isSpace
    let r ← stripLit ['f', 't'] r
    some (optDot r))
  <|>
  (do
    let r ← stripLit ['s', 'q', 'u', 'a', 'r', 'e'] s
    let r := r.dropWhile isSpace
    let r ← stripLit ['f', 'e', 'e'] r
    some (match r with
          | 't' :: rest => rest
          | other => other))
  <|> stripLit ['s', 'f'] s

/-- Pattern `(\d{1,3}(?:,\d{3})*)\s*(?:sq\.?\s*ft\.?|square\s*feet?|sf)` at the
head of the input; captured number with commas stripped. -/
def matchSqft (s : List Char) : Option (Nat × List Char) :=
  firstSome? (dOneToThree s) fun d =>
    firstSome? (starGroups d.2.length d.2) fun g =>
      let r := g.2.dropWhile isSpace
      (matchSqUnit r).map fun rest => (digitsToNat (d.1 ++ g.1), rest)

/-- Pattern `(\d+)\s*people` at the head of the input. -/
def matchPeople (s : List Char) : Option (Nat × List Char) :=
  let run := s.takeWhile Char.isDigit
  let after := s.dropWhile Char.isDigit
  if run.isEmpty then none
  else
    (stripLit ['p', 'e', 'o', 'p', 'l', 'e'] (after.dropWhile isSpace)).map
      fun rest => (digitsToNat run, rest)

/-- Pattern `team\s*of\s*(\d+)` at the head of the input. -/
def matchTeam (s : List Char) : Option (Nat × List Char) :=
  (stripLit ['t', 'e', 'a', 'm'] s).bind fun r =>
  (stripLit ['o', 'f'] (r.dropWhile isSpace)).bind fun r =>
  let r := r.dropWhile isSpace
  let run := r.takeWhile Char.isDigit
  let after := r.dropWhile Char.isDigit
  if run.isEmpty then none else some (digitsToNat run, after)

/-- Pattern `(\d+)\s*employees` at the head of the input. -/
def matchEmployees (s : List Char) : Option (Nat × List Char) :=
  let run := s.takeWhile Char.isDigit
  let after := s.dropWhile Char.isDigit
  if run.isEmpty then none
  else
    (stripLit ['e', 'm', 'p', 'l', 'o', 'y', 'e', 'e', 's'] (after.dropWhile isSpace)).map
      fun rest => (digitsToNat run, rest)

/-- Pattern `(\d+)\s*person\s*team` at the head of the input
(`final_web_app.py` only). -/
def matchPersonTeam (s : List Char) : Option (Nat × List Char) :=
  let run := s.takeWhile Char.isDigit
  let after := s.dropWhile Char.isDigit
  if run.isEmpty then none
  else
    (stripLit ['p', 'e', 'r', 's', 'o', 'n'] (after.dropWhile isSpace)).bind fun r =>
    (stripLit ['t', 'e', 'a', 'm'] (r.dropWhile isSpace)).map fun rest =>
      (digitsToNat run, rest)

/-- Non-overlapping leftmost matches, as Python `re.findall`: try the
matcher at each position left to right; on success resume after the
match (all matchers below consume at least one character). -/
def findallGo (m : List Char → Option (α × List Char)) : Nat → List Char → List α
  | 0, _ => []
  | _, [] => []
  | fuel + 1, c :: cs =>
    match m (c :: cs) with
    | some (v, rest) => v :: findallGo m fuel rest
    | none => findallGo m fuel cs

def findall (m : List Char → Option (α × List Char)) (s : List Char) : List α :=
  findallGo m s.length s

/-- The budget-pattern unit `(?:sq\.?\s*ft\.?|square\s*foot|sf)`. -/
def matchBudgetUnit (s : List Char) : Option (List Char) :=
  (do
    let r ← stripLit ['s', 'q'] s
    let r := optDot r
    let r := r.dropWhile isSpace
    let r ← stripLit ['f', 't'] r
    some (optDot r))
  <|>
  (do
    let r ← stripLit ['s', 'q', 'u', 'a', 'r', 'e'] s
    let r := r.dropWhile isSpace
    stripLit ['f', 'o', 'o', 't'] r)
  <|> stripLit ['s', 'f'] s

/-- Pattern `(?:per\s*)?` (consuming `per` and then failing is never recoverable
here because every following alternative starts with `s`, so maximal
munch is faithful). -/
def optPer (s : List Char) : List Char :=
  match stripLit ['p', 'e', 'r'] s with
  | some r => r.dropWhile isSpace
  | none => s

/-- Pattern `\$(\d+(?:\.\d{2})?)\s*(?:per\s*)?(?:sq\.?\s*ft\.?|square\s*foot|sf)`:
the service's per-square-foot budget pattern; the capture is returned as
(integer digits, cents digits), so `"28.50"` is `(28, 50)`. -/
def matchDollarSqft (s : List Char) : Option ((Nat × Nat) × List Char) :=
  match s with
  | '$' :: r =>
    let run := r.takeWhile Char.isDigit
    let after := r.dropWhile Char.isDigit
    if run.isEmpty then none
    else
      let attempt : Nat → List Char → Option ((Nat × Nat) × List Char) := fun c r2 =>
        (matchBudgetUnit (optPer (r2.dropWhile isSpace))).map fun rest =>
          ((digitsToNat run, c), rest)
      let withFrac : Option ((Nat × Nat) × List Char) :=
        match after with
        | '.' :: a :: b :: rest =>
          if a.isDigit && b.isDigit then attempt (digitsToNat [a, b]) rest
          else none
        | _ => none
      match withFrac with
      | some x => some x
      | none => attempt 0 after
  | _ => none

/-- Python `float` applied to the per-square-foot captures. -/
def dollarSqftVals (t : List Char) : List ℚ :=
  (findall matchDollarSqft t).map fun p => (p.1 : ℚ) + (p.2 : ℚ) / 100

/-- Pattern `\$(\d{1,3}(?:,\d{3})*)\s*(?:per\s*)?month`: the service's monthly
budget pattern (conversion to per-square-foot happens in the caller). -/
def matchDollarMonth (s : List Char) : Option (Nat × List Char) :=
  match s with
  | '$' :: r =>
    firstSome? (dOneToThree r) fun d =>
      firstSome? (starGroups d.2.length d.2) fun g =>
        (stripLit ['m', 'o', 'n', 't', 'h'] (optPer (g.2.dropWhile isSpace))).map
          fun rest => (digitsToNat (d.1 ++ g.1), rest)
  | _ => none

/-- Pattern `\d{1,3}(?:,\d{3})*` at the end of a pattern: fully greedy, no
continuation can force backtracking. -/
def capComma (s : List Char) : Option (Nat × List Char) :=
  let run := s.takeWhile Char.isDigit
  let after := s.dropWhile Char.isDigit
  let k := min run.length 3
  if k = 0 then none
  else
    if k < run.length then some (digitsToNat (run.take k), run.drop k ++ after)
    else
      let g := starMax after.length after
      some (digitsToNat (run ++ g.1), g.2)

/-- The lazy part `.*?\$CAP` of `budget.*?\$CAP`: advance over
non-newline characters to the first position where `\$` followed by the
capture succeeds. -/
def lazyDollar (cap : List Char → Option (Nat × List Char)) :
    List Char → Option (Nat × List Char)
  | [] => none
  | c :: r =>
    match (if c = '$' then cap r else none) with
    | some x => some x
    | none => if c = '\n' then none else lazyDollar cap r

/-- Pattern `budget.*?\$(\d{1,3}(?:,\d{3})*)`: the service's generic budget
pattern. -/
def matchBudgetGeneric (s : List Char) : Option (Nat × List Char) :=
  (stripLit ['b', 'u', 'd', 'g', 'e', 't'] s).bind (lazyDollar capComma)

/-- Pattern `\d+` at the end of a pattern (fully greedy). -/
def capDigits (s : List Char) : Option (Nat × List Char) :=
  let run := s.takeWhile Char.isDigit
  let after := s.dropWhile Char.isDigit
  if run.isEmpty then none else some (digitsToNat run, after)

/-- Pattern `\$(\d+)\s*(?:per\s*)?(?:sq\.?\s*ft\.?|square\s*foot)`
(`final_web_app.py`; note: no bare `sf` alternative). -/
def matchDollarSqftFW (s : List Char) : Option (Nat × List Char) :=
  match s with
  | '$' :: r =>
    let run := r.takeWhile Char.isDigit
    let after := r.dropWhile Char.isDigit
    if run.isEmpty then none
    else
      ((do
        let u ← stripLit ['s', 'q'] (optPer (after.dropWhile isSpace))
        let u := optDot u
        let u := u.dropWhile isSpace
        let u ← stripLit ['f', 't'] u
        some (optDot u))
      <|>
      (do
        let u ← stripLit ['s', 'q', 'u', 'a', 'r', 'e'] (optPer (after.dropWhile isSpace))
        stripLit ['f', 'o', 'o', 't'] (u.dropWhile isSpace))).map
        fun rest => (digitsToNat run, rest)
  | _ => none

/-- Pattern `budget.*?\$(\d+)` (`final_web_app.py`). -/
def matchBudgetGenericFW (s : List Char) : Option (Nat × List Char) :=
  (stripLit ['b', 'u', 'd', 'g', 'e', 't'] s).bind (lazyDollar capDigits)

/-- Pattern `around\s*\$(\d+)` (`final_web_app.py`). -/
def matchAround (s : List Char) : Option (Nat × List Char) :=
  (stripLit ['a', 'r', 'o', 'u', 'n', 'd'] s).bind fun r =>
    match r.dropWhile isSpace with
    | '$' :: r2 => capDigits r2
    | _ => none

/-- Pattern `under\s*\$(\d+)` (`final_web_app.py`). -/
def matchUnder (s : List Char) : Option (Nat × List Char) :=
  (stripLit ['u', 'n', 'd', 'e', 'r'] s).bind fun r =>
    match r.dropWhile isSpace with
    | '$' :: r2 => capDigits r2
    | _ => none

/-- Python substring containment (`needle in hay`). -/
def containsSub (needle : List Char) : List Char → Bool
  | [] => needle.isEmpty
  | c :: rest => needle.isPrefixOf (c :: rest) || containsSub needle rest

/-- Python `str.lower()`. -/
def lowerText (t : List Char) : List Char := t.map Char.toLower

/-- Python `text.split()`: maximal runs of non-whitespace characters. -/
def splitWsAux : List Char → List Char → List (List Char)
  | [], acc => if acc.isEmpty then [] else [acc.reverse]
  | c :: r, acc =>
    if isSpace c then
      if acc.isEmpty then splitWsAux r [] else acc.reverse :: splitWsAux r []
    else splitWsAux r (c :: acc)

def wordCount (t : List Char) : Nat := (splitWsAux t []).length

/-- A catalog row.  The CSV columns not inspected by the matching logic
(floor, suite, broker contact, monthly/annual rent, GCI) are carried
through the pipeline untouched by the source and are omitted here. -/
structure Property where
  unique_id : List Char
  address : List Char
  size_sf : ℚ
  rent_sf_year : ℚ
deriving DecidableEq

/-- The requirements dictionary built by `_extract_requirements`.  The
keys `company_size`, `industry`, `must_haves` and `nice_to_haves` are
initialised but never written nor read by the source, and are omitted. -/
structure Requirements where
  min_size : Option ℚ
  max_size : Option ℚ
  max_rent_per_sf : Option ℚ
  preferred_locations : List (List Char)
  culture_keywords : List (List Char)
deriving DecidableEq

/-- The slice of the `emotion_data` dictionary read by
`_apply_emotion_filters`: `enthusiasm_level` and the `excited` /
`professional` entries of `tone_analysis`. -/
structure EmotionData where
  enthusiasm_level : ℚ
  excited : ℚ
  professional : ℚ
deriving DecidableEq

/-- Python truthiness of an optional number (`None` and `0` are falsy). -/
def truthy : Option ℚ → Bool
  | none => false
  | some x => x ≠ 0

/-- The size regex families of `_extract_requirements`, in source
order: explicit square footage, then the three people-count proxies,
each people count converted at 125 sq ft per person. -/
def sizeMatches (t : List Char) : List Nat :=
  findall matchSqft t
    ++ (findall matchPeople t).map (· * 125)
    ++ (findall matchTeam t).map (· * 125)
    ++ (findall matchEmployees t).map (· * 125)

/-- The budget loop of `_extract_requirements`: pattern families tried
in order, the first family with any match wins and only its first match
is kept; a monthly figure is converted at an assumed 2000 sq ft. -/
def budgetLoop : List (List ℚ × Bool) → Option ℚ
  | [] => none
  | (ms, isMonth) :: rest =>
    match ms with
    | [] => budgetLoop rest
    | b :: _ => some (if isMonth then b * 12 / 2000 else b)

def locationVocab : List (List Char) :=
  [['d','o','w','n','t','o','w','n'], ['u','p','t','o','w','n'],
   ['m','i','d','t','o','w','n'], ['d','i','s','t','r','i','c','t'],
   ['c','e','n','t','e','r']]

def cultureVocab : List (List Char) :=
  [['c','o','l','l','a','b','o','r','a','t','i','v','e'],
   ['m','o','d','e','r','n'],
   ['t','r','a','d','i','t','i','o','n','a','l'],
   ['c','r','e','a','t','i','v','e'],
   ['c','o','r','p','o','r','a','t','e'],
   ['s','t','a','r','t','u','p'],
   ['p','r','o','f','e','s','s','i','o','n','a','l'],
   ['c','a','s','u','a','l'],
   ['i','n','n','o','v','a','t','i','v','e'],
   ['t','e','c','h']]

/-- Embedding of `PropertyMatchingService._extract_requirements`, applied to the
lower-cased concatenation of the conversation turns. -/
def extract_requirements (text : List Char) : Requirements :=
  let t := lowerText text
  let sizes := sizeMatches t
  let minmax : Option ℚ × Option ℚ :=
    match sizes with
    | [] => (none, none)
    | s :: rest =>
      let mn := rest.foldl min s
      let mx := rest.foldl max s
      (some (mn : ℚ),
       some (if 1 < sizes.length then (mx : ℚ) else (mn : ℚ) * (3 / 2)))
  { min_size := minmax.1
    max_size := minmax.2
    max_rent_per_sf :=
      budgetLoop
        [(dollarSqftVals t, false),
         ((findall matchDollarMonth t).map (fun n : Nat => (n : ℚ)), true),
         ((findall matchBudgetGeneric t).map (fun n : Nat => (n : ℚ)), false)]
    preferred_locations := locationVocab.filter (fun k => containsSub k t)
    culture_keywords := cultureVocab.filter (fun k => containsSub k t) }

def modernInnovativeTech : List (List Char) :=
  [['m','o','d','e','r','n'], ['i','n','n','o','v','a','t','i','v','e'],
   ['t','e','c','h']]

def professionalCorporate : List (List Char) :=
  [['p','r','o','f','e','s','s','i','o','n','a','l'],
   ['c','o','r','p','o','r','a','t','e']]

/-- Embedding of `PropertyMatchingService._apply_emotion_filters`. -/
def apply_emotion_filters (req : Requirements) (e : EmotionData) : Requirements :=
  let r1 :=
    if e.enthusiasm_level > 7 / 10 then
      { req with
        max_rent_per_sf :=
          if truthy req.max_rent_per_sf then
            req.max_rent_per_sf.map (· * (12 / 10))
          else req.max_rent_per_sf
        max_size :=
          if truthy req.max_size then
            req.max_size.map (· * (11 / 10))
          else req.max_size }
    else req
  let r2 :=
    if e.excited > 6 / 10 then
      { r1 with culture_keywords := r1.culture_keywords ++ modernInnovativeTech }
    else r1
  if e.professional > 7 / 10 then
    { r2 with culture_keywords := r2.culture_keywords ++ professionalCorporate }
  else r2

/-- Embedding of `filtered_df[filtered_df['Size (SF)'] >= requirements['min_size']]`,
guarded by Python truthiness of the bound. -/
def applySizeMin (o : Option ℚ) (l : List Property) : List Property :=
  match o with
  | some m => if m = 0 then l else l.filter (fun p => decide (m ≤ p.size_sf))
  | none => l

def applySizeMax (o : Option ℚ) (l : List Property) : List Property :=
  match o with
  | some m => if m = 0 then l else l.filter (fun p => decide (p.size_sf ≤ m))
  | none => l

def applyRent (o : Option ℚ) (l : List Property) : List Property :=
  match o with
  | some m => if m = 0 then l else l.filter (fun p => decide (p.rent_sf_year ≤ m))
  | none => l

/-- The location mask: address contains (case-insensitively) at least
one preferred location term; applied only when the preference list is
non-empty. -/
def applyLoc (locs : List (List Char)) (l : List Property) : List Property :=
  if locs.isEmpty then l
  else l.filter (fun p => locs.any (fun k => containsSub (lowerText k) (lowerText p.address)))

/-- The record set surviving the four conjunctive filters of
`_find_matching_properties`, in source order. -/
def survivors (catalog : List Property) (req : Requirements) : List Property :=
  applyLoc req.preferred_locations
    (applyRent req.max_rent_per_sf
      (applySizeMax req.max_size
        (applySizeMin req.min_size catalog)))

/-- Embedding of `sum(1 for keyword in culture_keywords if keyword.lower() in
property_text)` — duplicates in the keyword list count separately. -/
def cultureScore (keys : List (List Char)) (p : Property) : Nat :=
  (keys.filter (fun k => containsSub (lowerText k) (lowerText p.address))).length

/-- pandas `sort_values(by, ascending=False)` reduces to: reverse the
column, argsort it ascending with the selected kernel, map the resulting
positions back to original row positions, and reverse the indexer. -/
def pandasDescArgsort (kernel : List ℚ → List Nat) (scores : List ℚ) : List Nat :=
  ((kernel scores.reverse).map (fun j => scores.length - 1 - j)).reverse

/-- Stable ascending insertion argsort — what numpy's introsort does on
segments shorter than its insertion threshold; supplied to the matcher
as one admissible kernel. -/
def insertIdx (p : Nat × ℚ) : List (Nat × ℚ) → List (Nat × ℚ)
  | [] => [p]
  | q :: qs => if p.2 < q.2 then p :: q :: qs else q :: insertIdx p qs

def insertionArgsort (l : List ℚ) : List Nat :=
  (l.enum.foldl (fun acc p => insertIdx p acc) []).map (·.1)

/-- Embedding of `PropertyMatchingService._find_matching_properties`, parameterised
by the numpy argsort kernel (the source leaves `sort_values` at
`kind='quicksort'`, so tie behaviour belongs to numpy, not to this
repository). -/
def find_matching (kernel : List ℚ → List Nat) (catalog : List Property)
    (req : Requirements) : List Property :=
  if catalog.isEmpty then []
  else
    let s := survivors catalog req
    let sorted :=
      if req.culture_keywords.isEmpty then s
      else
        let scores := s.map (fun p => (cultureScore req.culture_keywords p : ℚ))
        (pandasDescArgsort kernel scores).filterMap (fun i => s[i]?)
    sorted.take 3

/-- The fallback sample catalog `_create_sample_data` builds when the
CSV is absent. -/
def prop1 : Property :=
  { unique_id := ['P','R','O','P','0','0','1']
    address := ['1','2','3',' ','I','n','n','o','v','a','t','i','o','n',' ',
                'D','r','i','v','e',' ','D','o','w','n','t','o','w','n']
    size_sf := 2500, rent_sf_year := 28 }

def prop2 : Property :=
  { unique_id := ['P','R','O','P','0','0','2']
    address := ['4','5','6',' ','T','e','c','h',' ','P','l','a','z','a',' ',
                'M','i','d','t','o','w','n']
    size_sf := 3200, rent_sf_year := 32 }

def prop3 : Property :=
  { unique_id := ['P','R','O','P','0','0','3']
    address := ['7','8','9',' ','B','u','s','i','n','e','s','s',' ',
                'C','e','n','t','e','r',' ','U','p','t','o','w','n']
    size_sf := 1800, rent_sf_year := 25 }

def sampleCatalog : List Property := [prop1, prop2, prop3]

/-- Output of `analyze_emotion_from_text` in `final_web_app.py`
(`tone_analysis` flattened into fields). -/
structure EmotionProfile where
  emotion_score : ℚ
  enthusiasm_level : ℚ
  voice_pace : ℚ
  professional_level : ℚ
  confidence_level : ℚ
  uncertainty_level : ℚ
deriving DecidableEq

def enthusiasmKeywords : List (List Char) :=
  [['e','x','c','i','t','e','d'], ['l','o','v','e'], ['a','m','a','z','i','n','g'],
   ['p','e','r','f','e','c','t'], ['g','r','e','a','t'],
   ['f','a','n','t','a','s','t','i','c'], ['w','o','w'], ['a','w','e','s','o','m','e']]

def professionalKeywords : List (List Char) :=
  [['n','e','e','d'], ['r','e','q','u','i','r','e'], ['b','u','s','i','n','e','s','s'],
   ['p','r','o','f','e','s','s','i','o','n','a','l'], ['o','f','f','i','c','e'],
   ['c','o','m','p','a','n','y'], ['c','o','r','p','o','r','a','t','e']]

def uncertaintyKeywords : List (List Char) :=
  [['m','a','y','b','e'], ['p','e','r','h','a','p','s'],
   ['n','o','t',' ','s','u','r','e'], ['u','n','c','e','r','t','a','i','n'],
   ['t','h','i','n','k'], ['m','i','g','h','t'], ['p','o','s','s','i','b','l','y']]

def confidenceKeywords : List (List Char) :=
  [['d','e','f','i','n','i','t','e','l','y'], ['c','e','r','t','a','i','n','l','y'],
   ['a','b','s','o','l','u','t','e','l','y'], ['s','u','r','e'],
   ['c','o','n','f','i','d','e','n','t'], ['k','n','o','w'], ['c','l','e','a','r']]

/-- Embedding of `sum(1 for word in keywords if word in text_lower)`: membership per
distinct keyword, not per occurrence. -/
def countKw (kws : List (List Char)) (t : List Char) : Nat :=
  (kws.filter (fun k => containsSub k t)).length

/-- Embedding of `analyze_emotion_from_text` (`final_web_app.py`). -/
def analyze_emotion_from_text (text : List Char) : EmotionProfile :=
  let t := lowerText text
  let wc : ℚ := max (wordCount t) 1
  let enth := min ((countKw enthusiasmKeywords t : ℚ) / wc * 8) 1
  let prof := min ((countKw professionalKeywords t : ℚ) / wc * 5) 1
  let unc := min ((countKw uncertaintyKeywords t : ℚ) / wc * 8) 1
  let conf := min ((countKw confidenceKeywords t : ℚ) / wc * 8) 1
  let score := max 0 (min 1 (1 / 2 + (enth + conf - unc) * (3 / 10)))
  { emotion_score := score
    enthusiasm_level := enth
    voice_pace := 1 + (enth - 1 / 2) * (2 / 5)
    professional_level := prof
    confidence_level := conf
    uncertainty_level := unc }

/-- Output of `TranscriptionService._basic_emotion_analysis`
(`confident` is derived as `1 - uncertainty_level`). -/
structure BasicEmotion where
  emotion_score : ℚ
  enthusiasm_level : ℚ
  professional_level : ℚ
  confident : ℚ
  uncertainty_level : ℚ
deriving DecidableEq

def basicEnthusiasmKeywords : List (List Char) :=
  [['e','x','c','i','t','e','d'], ['l','o','v','e'], ['a','m','a','z','i','n','g'],
   ['p','e','r','f','e','c','t'], ['g','r','e','a','t'],
   ['f','a','n','t','a','s','t','i','c']]

def basicProfessionalKeywords : List (List Char) :=
  [['n','e','e','d'], ['r','e','q','u','i','r','e'], ['b','u','s','i','n','e','s','s'],
   ['p','r','o','f','e','s','s','i','o','n','a','l'], ['o','f','f','i','c','e']]

def basicUncertaintyKeywords : List (List Char) :=
  [['m','a','y','b','e'], ['p','e','r','h','a','p','s'],
   ['n','o','t',' ','s','u','r','e'], ['u','n','c','e','r','t','a','i','n'],
   ['h','m','m']]

/-- Embedding of `TranscriptionService._basic_emotion_analysis`: no word-count floor;
an empty token list takes the fixed default levels (0.5, 0.5, 0.3). -/
def basic_emotion_analysis (transcript : List Char) : BasicEmotion :=
  let t := lowerText transcript
  let e := countKw basicEnthusiasmKeywords t
  let p := countKw basicProfessionalKeywords t
  let u := countKw basicUncertaintyKeywords t
  let tw := wordCount t
  let levels : ℚ × ℚ × ℚ :=
    if 0 < tw then
      (min ((e : ℚ) / tw * 10) 1, min ((p : ℚ) / tw * 10) 1,
       min ((u : ℚ) / tw * 10) 1)
    else (1 / 2, 1 / 2, 3 / 10)
  { emotion_score := 1 / 2 + (levels.1 - levels.2.2) * (1 / 2)
    enthusiasm_level := levels.1
    professional_level := levels.2.1
    confident := 1 - levels.2.2
    uncertainty_level := levels.2.2 }

/-- The people patterns tried (in order, first `re.search` hit wins) by
`find_matching_properties` in `final_web_app.py`. -/
def fwPeoplePatterns : List (List Char → Option (Nat × List Char)) :=
  [matchPeople, matchTeam, matchEmployees, matchPersonTeam]

/-- The budget patterns tried by `find_matching_properties`. -/
def fwBudgetPatterns : List (List Char → Option (Nat × List Char)) :=
  [matchDollarSqftFW, matchBudgetGenericFW, matchAround, matchUnder]

/-- Python `re.search` of each pattern in turn with `break` on the first hit:
the first value of the first family whose leftmost match exists. -/
def firstSearch (pats : List (List Char → Option (Nat × List Char)))
    (t : List Char) : Option Nat :=
  match pats with
  | [] => none
  | p :: ps =>
    match (findall p t).head? with
    | some n => some n
    | none => firstSearch ps t

def fwLocationKeywords : List (List Char) :=
  [['d','o','w','n','t','o','w','n'], ['m','i','d','t','o','w','n'],
   ['u','p','t','o','w','n'], ['f','i','n','a','n','c','i','a','l'],
   ['t','e','c','h'], ['c','r','e','a','t','i','v','e'], ['a','r','t','s']]

/-- The `matches` list accumulated by `find_matching_properties` before
deduplication: people-count size window, budget window with 20% slack,
then one address scan per location keyword present in the text.  The
three criteria are unioned (`extend`), not intersected. -/
def fwCandidates (catalog : List Property) (t : List Char) : List Property :=
  let peopleM :=
    match firstSearch fwPeoplePatterns t with
    | some n =>
      catalog.filter (fun p =>
        decide (((100 * n : ℕ) : ℚ) ≤ p.size_sf) &&
        decide (p.size_sf ≤ ((200 * n : ℕ) : ℚ)))
    | none => []
  let budgetM :=
    match firstSearch fwBudgetPatterns t with
    | some b =>
      catalog.filter (fun p => decide (p.rent_sf_year ≤ (b : ℚ) * (12 / 10)))
    | none => []
  let locM :=
    fwLocationKeywords.flatMap (fun k =>
      if containsSub k t then
        catalog.filter (fun p => containsSub k (lowerText p.address))
      else [])
  peopleM ++ budgetM ++ locM

/-- Keep the first record for each `unique_id`, skipping ids already
seen. -/
def dedupById : List Property → List (List Char) → List Property
  | [], _ => []
  | p :: ps, seen =>
    if p.unique_id ∈ seen then dedupById ps seen
    else p :: dedupById ps (p.unique_id :: seen)

/-- Embedding of `find_matching_properties` (`final_web_app.py`): dedup-and-top-3 of
the accumulated matches, falling back to the first three catalog rows
when no criterion produced a match. -/
def fw_find_matching_properties (catalog : List Property)
    (message : List Char) : List Property :=
  let t := lowerText message
  let found := fwCandidates catalog t
  if found.isEmpty then catalog.take 3
  else (dedupById found []).take 3

def fwProp4 : Property :=
  { unique_id := ['P','R','O','P','0','0','4']
    address := ['3','2','1',' ','C','r','e','a','t','i','v','e',' ',
                'C','o','m','m','o','n','s',' ','A','r','t','s',' ',
                'D','i','s','t','r','i','c','t']
    size_sf := 2000, rent_sf_year := 26 }

def fwProp5 : Property :=
  { unique_id := ['P','R','O','P','0','0','5']
    address := ['6','5','4',' ','E','x','e','c','u','t','i','v','e',' ',
                'T','o','w','e','r',' ','F','i','n','a','n','c','i','a','l',' ',
                'D','i','s','t','r','i','c','t']
    size_sf := 5000, rent_sf_year := 42 }

/-- The five-row fallback catalog `load_properties` builds in
`final_web_app.py`. -/
def fwCatalog : List Property := [prop1, prop2, prop3, fwProp4, fwProp5]

/-- The bound invariants of a requirement profile: every numeric bound
absent or nonnegative, and the size bounds ordered. -/
def boundsOk (r : Requirements) : Prop :=
  (∀ q : ℚ, r.min_size = some q → 0 ≤ q) ∧
  (∀ q : ℚ, r.max_size = some q → 0 ≤ q) ∧
  (∀ q : ℚ, r.max_rent_per_sf = some q → 0 ≤ q) ∧
  (∀ a b : ℚ, r.min_size = some a → r.max_size = some b → a ≤ b)

/-- Profile `r2` is `r1` with exactly one additional bound: a size bound, a
rent bound, or a non-empty location set. -/
def addsBound (r1 r2 : Requirements) : Prop :=
  (r1.min_size = none ∧ r2.min_size ≠ none ∧
    r2 = { r1 with min_size := r2.min_size }) ∨
  (r1.max_size = none ∧ r2.max_size ≠ none ∧
    r2 = { r1 with max_size := r2.max_size }) ∨
  (r1.max_rent_per_sf = none ∧ r2.max_rent_per_sf ≠ none ∧
    r2 = { r1 with max_rent_per_sf := r2.max_rent_per_sf }) ∨
  (r1.preferred_locations = [] ∧ r2.preferred_locations ≠ [] ∧
    r2 = { r1 with preferred_locations := r2.preferred_locations })

/-- Requirement profile with no constraint at all. -/
def reqNone : Requirements :=
  { min_size := none, max_size := none, max_rent_per_sf := none
    preferred_locations := [], culture_keywords := [] }

/-- A rent bound that is set but zero (Python treats `0.0` as falsy). -/
def reqZeroRent : Requirements := { reqNone with max_rent_per_sf := some 0 }

def reqMin2000 : Requirements := { reqNone with min_size := some 2000 }

def reqRent26 : Requirements := { reqNone with max_rent_per_sf := some 26 }

def reqMin10000 : Requirements := { reqNone with min_size := some 10000 }

/-! ### Helper lemmas -/

theorem foldl_min_le_init (l : List ℕ) : ∀ s : ℕ, l.foldl min s ≤ s := by
  induction l with
  | nil => intro s; exact Nat.le_refl s
  | cons a t ih =>
    intro s
    exact Nat.le_trans (ih (min s a)) (Nat.min_le_left s a)

theorem init_le_foldl_max (l : List ℕ) : ∀ s : ℕ, s ≤ l.foldl max s := by
  induction l with
  | nil => intro s; exact Nat.le_refl s
  | cons a t ih =>
    intro s
    exact Nat.le_trans (Nat.le_max_left s a) (ih (max s a))

theorem foldl_min_le_foldl_max (l : List ℕ) (s : ℕ) :
    l.foldl min s ≤ l.foldl max s :=
  Nat.le_trans (foldl_min_le_init l s) (init_le_foldl_max l s)

/-- Unfolding of the size aggregation of `_extract_requirements` on a
non-empty collected list. -/
theorem extract_min_max (text : List Char) (s : ℕ) (rest : List ℕ)
    (h : sizeMatches (lowerText text) = s :: rest) :
    (extract_requirements text).min_size = some ((rest.foldl min s : ℕ) : ℚ) ∧
    (extract_requirements text).max_size =
      some (if 1 < (s :: rest).length then ((rest.foldl max s : ℕ) : ℚ)
            else ((rest.foldl min s : ℕ) : ℚ) * (3 / 2)) := by
  constructor <;> simp only [extract_requirements, h]

theorem extract_min_max_nil (text : List Char)
    (h : sizeMatches (lowerText text) = []) :
    (extract_requirements text).min_size = none ∧
    (extract_requirements text).max_size = none := by
  constructor <;> simp only [extract_requirements, h]

theorem budgetLoop_nonneg :
    ∀ fams : List (List ℚ × Bool),
      (∀ fam ∈ fams, ∀ b ∈ fam.1, 0 ≤ b) →
      ∀ q : ℚ, budgetLoop fams = some q → 0 ≤ q := by
  intro fams
  induction fams with
  | nil => intro _ q hq; simp [budgetLoop] at hq
  | cons fam rest ih =>
    intro h q hq
    obtain ⟨ms, isMonth⟩ := fam
    cases ms with
    | nil =>
      exact ih (fun f hf => h f (List.mem_cons_of_mem _ hf)) q hq
    | cons b bs =>
      have hb : 0 ≤ b := h (b :: bs, isMonth) (List.mem_cons_self _ _) b (List.mem_cons_self _ _)
      simp only [budgetLoop] at hq
      cases isMonth with
      | false =>
        have : q = b := by simpa using hq.symm
        rw [this]; exact hb
      | true =>
        have : q = b * 12 / 2000 := by simpa using hq.symm
        rw [this]
        positivity

theorem extract_rent_nonneg (text : List Char) :
    ∀ q : ℚ, (extract_requirements text).max_rent_per_sf = some q → 0 ≤ q := by
  intro q hq
  have hfam : ∀ fam ∈
      [(dollarSqftVals (lowerText text), false),
       ((findall matchDollarMonth (lowerText text)).map (fun n : Nat => (n : ℚ)), true),
       ((findall matchBudgetGeneric (lowerText text)).map (fun n : Nat => (n : ℚ)), false)],
      ∀ b ∈ fam.1, 0 ≤ b := by
    intro fam hfam b hb
    simp only [List.mem_cons, List.not_mem_nil, or_false] at hfam
    rcases hfam with rfl | rfl | rfl
    · simp only [dollarSqftVals, List.mem_map] at hb
      obtain ⟨p, _, rfl⟩ := hb
      positivity
    · simp only [List.mem_map] at hb
      obtain ⟨n, _, rfl⟩ := hb
      exact Nat.cast_nonneg n
    · simp only [List.mem_map] at hb
      obtain ⟨n, _, rfl⟩ := hb
      exact Nat.cast_nonneg n
  exact budgetLoop_nonneg _ hfam q hq

/-- The extraction invariant: all bounds absent or nonnegative, size
bounds ordered. -/
theorem extract_bounds (text : List Char) : boundsOk (extract_requirements text) := by
  refine ⟨?_, ?_, extract_rent_nonneg text, ?_⟩
  · intro q hq
    cases h : sizeMatches (lowerText text) with
    | nil =>
      rw [(extract_min_max_nil text h).1] at hq
      exact absurd hq (by simp)
    | cons s rest =>
      rw [(extract_min_max text s rest h).1] at hq
      obtain rfl : ((rest.foldl min s : ℕ) : ℚ) = q := by simpa using hq
      positivity
  · intro q hq
    cases h : sizeMatches (lowerText text) with
    | nil =>
      rw [(extract_min_max_nil text h).2] at hq
      exact absurd hq (by simp)
    | cons s rest =>
      rw [(extract_min_max text s rest h).2] at hq
      obtain rfl : _ = q := Option.some.inj hq
      split <;> positivity
  · intro a b ha hb
    cases h : sizeMatches (lowerText text) with
    | nil =>
      rw [(extract_min_max_nil text h).1] at ha
      exact absurd ha (by simp)
    | cons s rest =>
      rw [(extract_min_max text s rest h).1] at ha
      rw [(extract_min_max text s rest h).2] at hb
      obtain rfl : ((rest.foldl min s : ℕ) : ℚ) = a := by simpa using ha
      obtain rfl : _ = b := Option.some.inj hb
      split
      · exact_mod_cast foldl_min_le_foldl_max rest s
      · nlinarith [Nat.cast_nonneg (α := ℚ) (rest.foldl min s)]

theorem aef_min_size (r : Requirements) (e : EmotionData) :
    (apply_emotion_filters r e).min_size = r.min_size := by
  unfold apply_emotion_filters
  dsimp only
  split <;> split <;> split <;> rfl

theorem aef_max_size (r : Requirements) (e : EmotionData) :
    (apply_emotion_filters r e).max_size =
      if e.enthusiasm_level > 7 / 10 ∧ truthy r.max_size then
        r.max_size.map (· * (11 / 10))
      else r.max_size := by
  unfold apply_emotion_filters
  dsimp only
  split_ifs <;> simp_all

theorem aef_rent (r : Requirements) (e : EmotionData) :
    (apply_emotion_filters r e).max_rent_per_sf =
      if e.enthusiasm_level > 7 / 10 ∧ truthy r.max_rent_per_sf then
        r.max_rent_per_sf.map (· * (12 / 10))
      else r.max_rent_per_sf := by
  unfold apply_emotion_filters
  dsimp only
  split_ifs <;> simp_all

/-- Emotion adjustment preserves the bound invariants: it only ever
scales an existing positive bound up. -/
theorem aef_bounds (r : Requirements) (e : EmotionData) (h : boundsOk r) :
    boundsOk (apply_emotion_filters r e) := by
  obtain ⟨hmin, hmax, hrent, hord⟩ := h
  refine ⟨?_, ?_, ?_, ?_⟩
  · intro q hq
    rw [aef_min_size] at hq
    exact hmin q hq
  · intro q hq
    rw [aef_max_size] at hq
    split at hq
    · rcases hb : r.max_size with _ | b
      · rw [hb] at hq; exact absurd hq (by simp)
      · rw [hb] at hq
        obtain rfl : b * (11 / 10) = q := by simpa using hq
        have := hmax b hb
        positivity
    · exact hmax q hq
  · intro q hq
    rw [aef_rent] at hq
    split at hq
    · rcases hb : r.max_rent_per_sf with _ | b
      · rw [hb] at hq; exact absurd hq (by simp)
      · rw [hb] at hq
        obtain rfl : b * (12 / 10) = q := by simpa using hq
        have := hrent b hb
        positivity
    · exact hrent q hq
  · intro a b ha hb
    rw [aef_min_size] at ha
    rw [aef_max_size] at hb
    split at hb
    · rcases hm : r.max_size with _ | m
      · rw [hm] at hb; exact absurd hb (by simp)
      · rw [hm] at hb
        obtain rfl : m * (11 / 10) = b := by simpa using hb
        have h1 := hord a m ha hm
        have h2 := hmax m hm
        nlinarith
    · exact hord a b ha hb

/-! ### Claim theorems -/

/-- C2: for every text whose only numeric mention is a single
people-count phrase ("N people", "team of N", "N employees") — i.e. the
explicit square-footage family finds nothing and the three people
families together find exactly one count `n` — extraction yields
`minSize = n * 125` and `maxSize = minSize * 1.5`. -/
theorem C2_people_only_size (text : List Char) (n : ℕ)
    (hsq : findall matchSqft (lowerText text) = [])
    (hp : findall matchPeople (lowerText text) ++ findall matchTeam (lowerText text)
          ++ findall matchEmployees (lowerText text) = [n]) :
    (extract_requirements text).min_size = some ((n : ℚ) * 125) ∧
    (extract_requirements text).max_size = some ((n : ℚ) * 125 * (3 / 2)) := by
  have hsz : sizeMatches (lowerText text) = [n * 125] := by
    unfold sizeMatches
    rw [hsq, List.nil_append, ← List.map_append, ← List.map_append, hp]
    rfl
  obtain ⟨h1, h2⟩ := extract_min_max text (n * 125) [] hsz
  constructor
  · rw [h1]
    congr 1
    show ((n * 125 : ℕ) : ℚ) = (n : ℚ) * 125
    push_cast
    ring
  · rw [h2]
    norm_num

/-- Witness for C2 at the concrete text `"25 people"`:
min 3125 sq ft, max 4687.5 sq ft. -/
theorem C2_witness :
    (extract_requirements ("25 people".toList)).min_size = some ((25 : ℚ) * 125) ∧
    (extract_requirements ("25 people".toList)).max_size =
      some ((25 : ℚ) * 125 * (3 / 2)) :=
  C2_people_only_size ("25 people".toList) 25 (by decide) (by decide)

/-- C3 counterexample: `"8 people team of 8"` produces the collected
size list `[1000, 1000]` — a single distinct value — yet the code sets
`maxSize` to `max(list) = 1000`, not `minSize * 1.5 = 1500`, because its
branch tests `len(sizes) > 1`, not the number of distinct values. -/
theorem C3_counterexample :
    sizeMatches (lowerText ("8 people team of 8".toList)) = [1000, 1000] ∧
    (extract_requirements ("8 people team of 8".toList)).min_size = some 1000 ∧
    (extract_requirements ("8 people team of 8".toList)).max_size = some 1000 ∧
    (1000 : ℚ) * (3 / 2) = 1500 ∧
    (extract_requirements ("8 people team of 8".toList)).max_size ≠ some 1500 :=
  ⟨by decide, by decide, by decide, by norm_num, by decide⟩

/-- C3 amended: when the collected size list is non-empty, `minSize` is
its minimum, and `maxSize` is its maximum when the list has more than
one element (distinct or not), else `minSize * 1.5`; in all cases
`minSize ≤ maxSize`. -/
theorem C3_min_max_of_sizes (text : List Char)
    (h : sizeMatches (lowerText text) ≠ []) :
    ∃ mn : ℕ, (sizeMatches (lowerText text)).min? = some mn ∧
      (extract_requirements text).min_size = some (mn : ℚ) ∧
      (1 < (sizeMatches (lowerText text)).length →
        ∃ mx : ℕ, (sizeMatches (lowerText text)).max? = some mx ∧
          (extract_requirements text).max_size = some (mx : ℚ)) ∧
      (¬ 1 < (sizeMatches (lowerText text)).length →
        (extract_requirements text).max_size = some ((mn : ℚ) * (3 / 2))) ∧
      ∀ a b : ℚ, (extract_requirements text).min_size = some a →
        (extract_requirements text).max_size = some b → a ≤ b := by
  obtain ⟨s, rest, hsz⟩ : ∃ s rest, sizeMatches (lowerText text) = s :: rest := by
    cases hc : sizeMatches (lowerText text) with
    | nil => exact absurd hc h
    | cons s rest => exact ⟨s, rest, rfl⟩
  obtain ⟨h1, h2⟩ := extract_min_max text s rest hsz
  refine ⟨rest.foldl min s, ?_, h1, ?_, ?_, ?_⟩
  · rw [hsz]
    exact List.min?_cons'
  · intro hlen
    refine ⟨rest.foldl max s, ?_, ?_⟩
    · rw [hsz]
      exact List.max?_cons'
    · rw [h2, if_pos (hsz ▸ hlen)]
  · intro hlen
    rw [h2, if_neg (hsz ▸ hlen)]
  · exact (extract_bounds text).2.2.2

/-- Witness for C3 (amended) at `"team of 4"`: size list `[500]`,
min 500, max 750. -/
theorem C3_witness :
    ∃ mn : ℕ,
      (sizeMatches (lowerText ("team of 4".toList))).min? = some mn ∧
      (extract_requirements ("team of 4".toList)).min_size = some (mn : ℚ) ∧
      (1 < (sizeMatches (lowerText ("team of 4".toList))).length →
        ∃ mx : ℕ, (sizeMatches (lowerText ("team of 4".toList))).max? = some mx ∧
          (extract_requirements ("team of 4".toList)).max_size = some (mx : ℚ)) ∧
      (¬ 1 < (sizeMatches (lowerText ("team of 4".toList))).length →
        (extract_requirements ("team of 4".toList)).max_size =
          some ((mn : ℚ) * (3 / 2))) ∧
      ∀ a b : ℚ, (extract_requirements ("team of 4".toList)).min_size = some a →
        (extract_requirements ("team of 4".toList)).max_size = some b → a ≤ b :=
  C3_min_max_of_sizes ("team of 4".toList) (by decide)

/-- C4 counterexample: the degenerate text `"0 people"` yields the
bound `minSize = 0`, which is present but not strictly positive (Python
then treats the `0` as falsy downstream, so it acts as no constraint,
but the profile itself carries the zero bound). -/
theorem C4_counterexample :
    (extract_requirements ("0 people".toList)).min_size = some 0 ∧
    ¬ (0 : ℚ) < 0 := by
  exact ⟨by decide, by norm_num⟩

/-- C4 amended: every profile produced by extraction — before or after
emotion adjustment — has each numeric bound absent or *nonnegative*
(zero is possible, from a degenerate zero mention), and never has
`minSize > maxSize`. -/
theorem C4_bounds_invariant (text : List Char) (e : EmotionData) :
    boundsOk (extract_requirements text) ∧
    boundsOk (apply_emotion_filters (extract_requirements text) e) :=
  ⟨extract_bounds text, aef_bounds _ e (extract_bounds text)⟩

/-- Witness for C4 at `"team of 2"` with a maximally excited profile:
the adjusted profile still satisfies `minSize = 250 ≤ 412.5 = maxSize`. -/
theorem C4_witness :
    (apply_emotion_filters (extract_requirements ("team of 2".toList))
        ⟨1, 1, 1⟩).min_size = some 250 ∧
    (apply_emotion_filters (extract_requirements ("team of 2".toList))
        ⟨1, 1, 1⟩).max_size = some (825 / 2) ∧
    (250 : ℚ) ≤ 825 / 2 := by
  have hsz : sizeMatches (lowerText ("team of 2".toList)) = [250] := by decide
  obtain ⟨h1, h2⟩ := extract_min_max ("team of 2".toList) 250 [] hsz
  have hmin : (extract_requirements ("team of 2".toList)).min_size = some 250 := by
    simpa using h1
  have hmax : (extract_requirements ("team of 2".toList)).max_size =
      some (375 : ℚ) := by
    rw [h2]
    norm_num
  have w1 : (apply_emotion_filters (extract_requirements ("team of 2".toList))
      ⟨1, 1, 1⟩).min_size = some 250 := by
    rw [aef_min_size, hmin]
  have w2 : (apply_emotion_filters (extract_requirements ("team of 2".toList))
      ⟨1, 1, 1⟩).max_size = some (825 / 2) := by
    rw [aef_max_size, hmax, if_pos]
    · show some ((375 : ℚ) * (11 / 10)) = some ((825 : ℚ) / 2)
      congr 1
      norm_num
    · exact ⟨by norm_num, by decide⟩
  exact ⟨w1, w2,
    (C4_bounds_invariant ("team of 2".toList) ⟨1, 1, 1⟩).2.2.2.2 250 (825 / 2) w1 w2⟩

/-- C5: budget detection tries the three pattern families in fixed
priority order — per-square-foot, monthly (converted as
`monthly * 12 / 2000`), then generic — stops at the first family with a
match, and keeps only that family's first figure (later mentions are
ignored: the result depends only on the head of the first non-empty
family's match list). -/
theorem C5_budget_priority (text : List Char) :
    (extract_requirements text).max_rent_per_sf =
      match dollarSqftVals (lowerText text) with
      | b :: _ => some b
      | [] =>
        match findall matchDollarMonth (lowerText text) with
        | n :: _ => some ((n : ℚ) * 12 / 2000)
        | [] =>
          ((findall matchBudgetGeneric (lowerText text)).head?).map
            (fun n : Nat => (n : ℚ)) := by
  have hrfl : (extract_requirements text).max_rent_per_sf =
      budgetLoop
        [(dollarSqftVals (lowerText text), false),
         ((findall matchDollarMonth (lowerText text)).map (fun n : Nat => (n : ℚ)), true),
         ((findall matchBudgetGeneric (lowerText text)).map (fun n : Nat => (n : ℚ)), false)] := rfl
  rw [hrfl]
  rcases h1 : dollarSqftVals (lowerText text) with _ | ⟨b, bs⟩
  · rcases h2 : findall matchDollarMonth (lowerText text) with _ | ⟨n, ns⟩
    · rcases h3 : findall matchBudgetGeneric (lowerText text) with _ | ⟨m, ms⟩ <;>
        simp [budgetLoop, h3]
    · simp [budgetLoop]
  · simp [budgetLoop]

/-! ### Matcher lemmas -/

theorem applySizeMin_subset (o : Option ℚ) (l : List Property) :
    applySizeMin o l ⊆ l := by
  cases o with
  | none => exact fun _ h => h
  | some m =>
    dsimp [applySizeMin]
    split
    · exact fun _ h => h
    · exact (List.filter_sublist l).subset

theorem applySizeMin_mono (o : Option ℚ) {l₁ l₂ : List Property} (h : l₁ ⊆ l₂) :
    applySizeMin o l₁ ⊆ applySizeMin o l₂ := by
  cases o with
  | none => exact h
  | some m =>
    dsimp [applySizeMin]
    split
    · exact h
    · exact List.filter_subset _ h

theorem applySizeMax_subset (o : Option ℚ) (l : List Property) :
    applySizeMax o l ⊆ l := by
  cases o with
  | none => exact fun _ h => h
  | some m =>
    dsimp [applySizeMax]
    split
    · exact fun _ h => h
    · exact (List.filter_sublist l).subset

theorem applySizeMax_mono (o : Option ℚ) {l₁ l₂ : List Property} (h : l₁ ⊆ l₂) :
    applySizeMax o l₁ ⊆ applySizeMax o l₂ := by
  cases o with
  | none => exact h
  | some m =>
    dsimp [applySizeMax]
    split
    · exact h
    · exact List.filter_subset _ h

theorem applyRent_subset (o : Option ℚ) (l : List Property) :
    applyRent o l ⊆ l := by
  cases o with
  | none => exact fun _ h => h
  | some m =>
    dsimp [applyRent]
    split
    · exact fun _ h => h
    · exact (List.filter_sublist l).subset

theorem applyRent_mono (o : Option ℚ) {l₁ l₂ : List Property} (h : l₁ ⊆ l₂) :
    applyRent o l₁ ⊆ applyRent o l₂ := by
  cases o with
  | none => exact h
  | some m =>
    dsimp [applyRent]
    split
    · exact h
    · exact List.filter_subset _ h

theorem applyLoc_subset (locs : List (List Char)) (l : List Property) :
    applyLoc locs l ⊆ l := by
  dsimp [applyLoc]
  split
  · exact fun _ h => h
  · exact (List.filter_sublist l).subset

theorem applyLoc_mono (locs : List (List Char)) {l₁ l₂ : List Property}
    (h : l₁ ⊆ l₂) : applyLoc locs l₁ ⊆ applyLoc locs l₂ := by
  dsimp [applyLoc]
  split
  · exact h
  · exact List.filter_subset _ h

/-- The matcher's output only contains records that survived the
conjunctive filters, for every argsort kernel. -/
theorem find_matching_subset_survivors (kernel : List ℚ → List Nat)
    (catalog : List Property) (req : Requirements) :
    find_matching kernel catalog req ⊆ survivors catalog req := by
  intro p hp
  unfold find_matching at hp
  split at hp
  · exact absurd hp (List.not_mem_nil p)
  · dsimp only at hp
    split at hp
    · exact List.take_subset _ _ hp
    · have hmem := List.take_subset _ _ hp
      rcases List.mem_filterMap.1 hmem with ⟨i, _, hg⟩
      exact List.getElem?_mem hg

/-- C1 (amended to the modular matcher): when the conjunctive filters
eliminate every record, `_find_matching_properties` returns the empty
list — no fallback happens in this component, whatever the sort kernel. -/
theorem C1_empty_filters_empty_output (kernel : List ℚ → List Nat)
    (catalog : List Property) (req : Requirements)
    (h : survivors catalog req = []) :
    find_matching kernel catalog req = [] := by
  unfold find_matching
  split
  · rfl
  · dsimp only
    rw [h]
    split
    · rfl
    · have hfm : ∀ idx : List Nat,
          idx.filterMap (fun i => ([] : List Property)[i]?) = [] := by
        intro idx
        induction idx with
        | nil => rfl
        | cons a t ih => simp [ih]
      simp [hfm]

/-- Witness for C1 (amended): a 10000 sq ft minimum eliminates the whole
sample catalog and the matcher returns the empty list. -/
theorem C1_witness :
    find_matching insertionArgsort sampleCatalog reqMin10000 = [] :=
  C1_empty_filters_empty_output insertionArgsort sampleCatalog reqMin10000 (by decide)

/-- C1 counterexample (the monolithic matcher): on `"team of 1000"` the
only detected criterion (the people-count window 100000–200000 sq ft)
eliminates every record, no other criterion fires, and
`find_matching_properties` falls back to the first three unfiltered
catalog records instead of returning the empty list. -/
theorem C1_counterexample :
    firstSearch fwPeoplePatterns (lowerText ("team of 1000".toList)) = some 1000 ∧
    fwCandidates fwCatalog (lowerText ("team of 1000".toList)) = [] ∧
    fw_find_matching_properties fwCatalog ("team of 1000".toList) = fwCatalog.take 3 ∧
    fw_find_matching_properties fwCatalog ("team of 1000".toList) ≠ [] :=
  ⟨by decide, by decide, by decide, by decide⟩

/-- C6 (amended): when the rent bound is set *and non-zero*, every
record the matcher returns satisfies it. -/
theorem C6_rent_bound (kernel : List ℚ → List Nat) (catalog : List Property)
    (req : Requirements) (m : ℚ) (h : req.max_rent_per_sf = some m)
    (hm : m ≠ 0) :
    ∀ p ∈ find_matching kernel catalog req, p.rent_sf_year ≤ m := by
  intro p hp
  have hs : p ∈ survivors catalog req :=
    find_matching_subset_survivors kernel catalog req hp
  unfold survivors at hs
  have hr := applyLoc_subset _ _ hs
  rw [h] at hr
  dsimp [applyRent] at hr
  rw [if_neg hm] at hr
  have := (List.mem_filter.1 hr).2
  simpa using this

/-- C6 counterexample: with the rent bound *set to zero* the filter is
skipped (Python truthiness), and the matcher returns records whose rent
exceeds the bound. -/
theorem C6_counterexample :
    reqZeroRent.max_rent_per_sf = some 0 ∧
    prop1 ∈ find_matching insertionArgsort sampleCatalog reqZeroRent ∧
    ¬ prop1.rent_sf_year ≤ 0 :=
  ⟨rfl, by decide, by decide⟩

/-- Witness for C6 (amended) at bound 26 on the sample catalog: the
returned record `prop3` rents at 25 ≤ 26. -/
theorem C6_witness :
    prop3 ∈ find_matching insertionArgsort sampleCatalog reqRent26 ∧
    prop3.rent_sf_year ≤ 26 := by
  have hm : prop3 ∈ find_matching insertionArgsort sampleCatalog reqRent26 := by
    decide
  exact ⟨hm, C6_rent_bound insertionArgsort sampleCatalog reqRent26 26 rfl
    (by norm_num) prop3 hm⟩

/-- C8: filtering is conjunctive and monotone — adding one additional
bound (a size bound, a rent bound, or a non-empty location set) never
enlarges the set of surviving records. -/
theorem C8_conjunctive_monotone (catalog : List Property) (r1 r2 : Requirements)
    (h : addsBound r1 r2) : survivors catalog r2 ⊆ survivors catalog r1 := by
  rcases h with ⟨h0, _, heq⟩ | ⟨h0, _, heq⟩ | ⟨h0, _, heq⟩ | ⟨h0, _, heq⟩ <;>
    rw [heq] <;> unfold survivors <;> dsimp only <;> rw [h0]
  · exact applyLoc_mono _ (applyRent_mono _ (applySizeMax_mono _
      (applySizeMin_subset _ _)))
  · exact applyLoc_mono _ (applyRent_mono _ (applySizeMax_subset _ _))
  · exact applyLoc_mono _ (applyRent_subset _ _)
  · exact applyLoc_subset _ _

/-- Witness for C8: adding the 2000 sq ft minimum to the unconstrained
profile only shrinks the surviving set — in particular the surviving
record `prop1` also survives the weaker profile. -/
theorem C8_witness : prop1 ∈ survivors sampleCatalog reqNone :=
  C8_conjunctive_monotone sampleCatalog reqNone reqMin2000
    (Or.inl ⟨rfl, by decide, rfl⟩)
    (show prop1 ∈ survivors sampleCatalog reqMin2000 by decide)

/-! ### Emotion lemmas -/

theorem toLower_of_isSpace {c : Char} (h : isSpace c = true) : c.toLower = c := by
  simp only [isSpace, Bool.or_eq_true, decide_eq_true_eq] at h
  rcases h with ((((rfl | rfl) | rfl) | rfl) | rfl) | rfl <;> decide

theorem lowerText_isSpace {t : List Char} (h : ∀ c ∈ t, isSpace c = true) :
    ∀ c ∈ lowerText t, isSpace c = true := by
  intro c hc
  rcases List.mem_map.1 hc with ⟨d, hd, rfl⟩
  rw [toLower_of_isSpace (h d hd)]
  exact h d hd

theorem isPrefixOf_subset :
    ∀ {k t : List Char}, k.isPrefixOf t = true → ∀ c ∈ k, c ∈ t := by
  intro k
  induction k with
  | nil =>
    intro t _ c hc
    exact absurd hc (List.not_mem_nil c)
  | cons a ks ih =>
    intro t h c hc
    cases t with
    | nil => exact absurd h (by simp [List.isPrefixOf])
    | cons b ts =>
      simp only [List.isPrefixOf, Bool.and_eq_true, beq_iff_eq] at h
      rcases List.mem_cons.1 hc with rfl | hc'
      · exact h.1 ▸ List.mem_cons_self b ts
      · exact List.mem_cons_of_mem _ (ih h.2 c hc')

theorem containsSub_mem {k : List Char} :
    ∀ {t : List Char}, containsSub k t = true → ∀ c ∈ k, c ∈ t := by
  intro t
  induction t with
  | nil =>
    intro h c hc
    simp only [containsSub, List.isEmpty_iff] at h
    rw [h] at hc
    exact absurd hc (List.not_mem_nil c)
  | cons a r ih =>
    intro h c hc
    simp only [containsSub, Bool.or_eq_true] at h
    rcases h with h | h
    · exact isPrefixOf_subset h c hc
    · exact List.mem_cons_of_mem _ (ih h c hc)

theorem countKw_zero {kws : List (List Char)} {t : List Char}
    (hk : ∀ k ∈ kws, k.any (fun c => ! isSpace c) = true)
    (ht : ∀ c ∈ t, isSpace c = true) : countKw kws t = 0 := by
  unfold countKw
  rw [List.length_eq_zero, List.filter_eq_nil_iff]
  intro k hkmem hcontains
  rcases List.any_eq_true.1 (hk k hkmem) with ⟨c, hck, hcs⟩
  have hct : c ∈ t := containsSub_mem hcontains c hck
  rw [ht c hct] at hcs
  exact absurd hcs (by decide)

/-- C9 (amended to the web-app analyzer): on empty or whitespace-only
text every level is 0 and the emotion score is the neutral 0.5, because
the word count floors at 1 and all raw keyword scores are 0. -/
theorem C9_whitespace_neutral (text : List Char)
    (h : ∀ c ∈ text, isSpace c = true) :
    (analyze_emotion_from_text text).enthusiasm_level = 0 ∧
    (analyze_emotion_from_text text).professional_level = 0 ∧
    (analyze_emotion_from_text text).confidence_level = 0 ∧
    (analyze_emotion_from_text text).uncertainty_level = 0 ∧
    (analyze_emotion_from_text text).emotion_score = 1 / 2 := by
  have hlow := lowerText_isSpace h
  have h1 : countKw enthusiasmKeywords (lowerText text) = 0 :=
    countKw_zero (by decide) hlow
  have h2 : countKw professionalKeywords (lowerText text) = 0 :=
    countKw_zero (by decide) hlow
  have h3 : countKw uncertaintyKeywords (lowerText text) = 0 :=
    countKw_zero (by decide) hlow
  have h4 : countKw confidenceKeywords (lowerText text) = 0 :=
    countKw_zero (by decide) hlow
  unfold analyze_emotion_from_text
  dsimp only
  rw [h1, h2, h3, h4]
  norm_num

/-- Witness for C9 (amended) on the empty string. -/
theorem C9_witness :
    (analyze_emotion_from_text ("".toList)).enthusiasm_level = 0 ∧
    (analyze_emotion_from_text ("".toList)).professional_level = 0 ∧
    (analyze_emotion_from_text ("".toList)).confidence_level = 0 ∧
    (analyze_emotion_from_text ("".toList)).uncertainty_level = 0 ∧
    (analyze_emotion_from_text ("".toList)).emotion_score = 1 / 2 :=
  C9_whitespace_neutral ("".toList) (by decide)

/-- C9 counterexample: the transcription-service variant
`_basic_emotion_analysis` has no word-count floor — on empty text it
returns the fixed defaults (enthusiasm 0.5, professional 0.5,
uncertainty 0.3) and score 0.6, not the all-zero profile with score 0.5
asserted by the claim. -/
theorem C9_counterexample :
    (basic_emotion_analysis ("".toList)).enthusiasm_level = 1 / 2 ∧
    (basic_emotion_analysis ("".toList)).uncertainty_level = 3 / 10 ∧
    (basic_emotion_analysis ("".toList)).emotion_score = 3 / 5 ∧
    ¬ ((1 : ℚ) / 2 = 0) ∧ ¬ ((3 : ℚ) / 5 = 1 / 2) := by
  have he : basic_emotion_analysis ("".toList) =
      { emotion_score := 1 / 2 + ((1 : ℚ) / 2 - 3 / 10) * (1 / 2)
        enthusiasm_level := 1 / 2
        professional_level := 1 / 2
        confident := 1 - 3 / 10
        uncertainty_level := 3 / 10 } := rfl
  refine ⟨by rw [he], by rw [he], by rw [he]; norm_num, by norm_num, by norm_num⟩

/-! ### Deduplication lemmas -/

theorem dedupById_spec :
    ∀ (l : List Property) (seen : List (List Char)),
      (∀ p ∈ dedupById l seen, p.unique_id ∉ seen) ∧
      ((dedupById l seen).map (fun p => p.unique_id)).Nodup := by
  intro l
  induction l with
  | nil =>
    intro seen
    exact ⟨fun p hp => absurd hp (List.not_mem_nil p), by simp [dedupById]⟩
  | cons p ps ih =>
    intro seen
    by_cases hmem : p.unique_id ∈ seen
    · rw [dedupById, if_pos hmem]
      exact ih seen
    · rw [dedupById, if_neg hmem]
      refine ⟨?_, ?_⟩
      · intro q hq
        rcases List.mem_cons.1 hq with rfl | hq'
        · exact hmem
        · intro hc
          exact (ih (p.unique_id :: seen)).1 q hq' (List.mem_cons_of_mem _ hc)
      · rw [List.map_cons]
        refine List.nodup_cons.2 ⟨?_, (ih (p.unique_id :: seen)).2⟩
        intro hc
        rcases List.mem_map.1 hc with ⟨q, hq, hid⟩
        exact (ih (p.unique_id :: seen)).1 q hq (hid ▸ List.mem_cons_self _ _)

/-- C10: when catalog ids are pairwise distinct, the monolithic
matcher's output never contains two records with the same `unique_id` —
cross-criterion duplicates are removed (first occurrence kept), and the
fallback path returns a prefix of the distinct-id catalog. -/
theorem C10_no_duplicate_ids (catalog : List Property) (msg : List Char)
    (h : (catalog.map (fun p => p.unique_id)).Nodup) :
    ((fw_find_matching_properties catalog msg).map (fun p => p.unique_id)).Nodup := by
  unfold fw_find_matching_properties
  dsimp only
  split
  · exact h.sublist ((List.take_sublist _ _).map _)
  · exact (dedupById_spec (fwCandidates catalog (lowerText msg)) []).2.sublist
      ((List.take_sublist _ _).map _)

/-- Witness for C10: the five-row fallback catalog has distinct ids and
so does the matcher's output on a concrete message. -/
theorem C10_witness :
    ((fw_find_matching_properties fwCatalog
        ("we need space downtown for 20 people".toList)).map
      (fun p => p.unique_id)).Nodup :=
  C10_no_duplicate_ids fwCatalog
    ("we need space downtown for 20 people".toList) (by decide)

end CRE
